import Mathlib

/-!
Shallow embedding of the `resilient-circuit` resilience library
(packages `resilient_circuit` and `highway_circutbreaker`, two near-duplicate
copies of the same design) and proofs of its specification claims.

The embedding follows the Python source:
  * `buffer.py`          → `BinaryCircularBuffer`
  * `circuit_breaker.py` → `Status`, `markFailure`, `markSuccess`, `protectedCall`, …
  * `retry.py`           → `RetryWithBackoffPolicy`, `retryCall`
  * `backoff.py`         → `ExponentialDelay`, `FixedDelay`
  * `failsafe.py`        → `SafetyNet`
Exact rationals (`ℚ`) model Python's `fractions.Fraction` (both keep fractions
normalised, so `.den` agrees) and timestamps in seconds.
-/

namespace ResilientCircuit

/-! ### `buffer.py`: `GenericCircularBuffer` / `BinaryCircularBuffer`

Python `add` is `self._items.append(item); self._items = self._items[-self.size:]`;
for `size ≥ 1` (enforced at construction) `l[-n:]` is `List.rtake l n`. -/

structure BinaryCircularBuffer where
  size : ℕ
  items : List Bool
  deriving DecidableEq, Repr

namespace BinaryCircularBuffer

/-- `GenericCircularBuffer.__init__`: `size < 1` raises `ValueError`. -/
def create (size : ℕ) : Except String BinaryCircularBuffer :=
  if size < 1 then .error "`size` must be positive." else .ok ⟨size, []⟩

/-- `GenericCircularBuffer.add`. -/
def add (b : BinaryCircularBuffer) (item : Bool) : BinaryCircularBuffer :=
  ⟨b.size, (b.items ++ [item]).rtake b.size⟩

/-- `GenericCircularBuffer.__len__`. -/
def lengthB (b : BinaryCircularBuffer) : ℕ := b.items.length

/-- `GenericCircularBuffer.is_full`: `len(self) >= self.size`. -/
def is_full (b : BinaryCircularBuffer) : Bool := b.size ≤ b.lengthB

/-- `BinaryCircularBuffer.success_count`: `self._items.count(True)`. -/
def success_count (b : BinaryCircularBuffer) : ℕ := b.items.count true

/-- `BinaryCircularBuffer.failure_count`: `self._items.count(False)`. -/
def failure_count (b : BinaryCircularBuffer) : ℕ := b.items.count false

/-- `BinaryCircularBuffer.success_rate`: `Fraction(self.success_count, len(self))`. -/
def success_rate (b : BinaryCircularBuffer) : ℚ :=
  (b.success_count : ℚ) / (b.lengthB : ℚ)

/-- `BinaryCircularBuffer.failure_rate`: `Fraction(self.failure_count, len(self))`. -/
def failure_rate (b : BinaryCircularBuffer) : ℚ :=
  (b.failure_count : ℚ) / (b.lengthB : ℚ)

/-- Fresh buffer of a given capacity, as built internally by the states. -/
def fresh (size : ℕ) : BinaryCircularBuffer := ⟨size, []⟩

/-- Feeding a whole sequence of outcomes into a buffer. -/
def addAll (b : BinaryCircularBuffer) (xs : List Bool) : BinaryCircularBuffer :=
  xs.foldl add b

end BinaryCircularBuffer

open BinaryCircularBuffer

/-! ### `circuit_breaker.py` (the `resilient_circuit` copy, which is the
self-consistent one; the `highway_circutbreaker` copy differs only in the
`StatusOpen` timing check, embedded separately as `highwayValidateRejects`).

Timestamps (`datetime.now().timestamp()`, `timedelta.total_seconds()`) are
`ℚ` seconds; each guarded call happens at one instant `now`.  The outcome
classifier `should_consider_failure` is folded into the call outcome as a
`classified` bit. -/

inductive CircuitStatus where
  | CLOSED
  | OPEN
  | HALF_OPEN
  deriving DecidableEq, Repr

/-- Configuration of `CircuitProtectorPolicy.__init__`. -/
structure PolicyConfig where
  cooldown : ℚ
  failure_limit : ℚ
  success_limit : ℚ
  deriving DecidableEq, Repr

/-- `CircuitProtectorPolicy.DEFAULT_THRESHOLD = Fraction(1, 1)`. -/
def DEFAULT_THRESHOLD : ℚ := 1

/-- The live state object: `StatusClosed` / `StatusOpen` / `StatusHalfOpen`,
each with its `execution_log` buffer and `failure_count`; `StatusOpen` also
stores `open_until_timestamp`. -/
inductive Status where
  | Closed (log : BinaryCircularBuffer) (failure_count : ℕ)
  | Open (log : BinaryCircularBuffer) (failure_count : ℕ) (open_until_timestamp : ℚ)
  | HalfOpen (log : BinaryCircularBuffer) (failure_count : ℕ)
  deriving DecidableEq, Repr

namespace Status

/-- `status_type` of each `CircuitStatusBase` subclass. -/
def status_type : Status → CircuitStatus
  | .Closed _ _ => .CLOSED
  | .Open _ _ _ => .OPEN
  | .HalfOpen _ _ => .HALF_OPEN

def execution_log : Status → BinaryCircularBuffer
  | .Closed log _ => log
  | .Open log _ _ => log
  | .HalfOpen log _ => log

/-- `getattr(self._status, 'failure_count', 0)`. -/
def failureCount : Status → ℕ
  | .Closed _ fc => fc
  | .Open _ fc _ => fc
  | .HalfOpen _ fc => fc

/-- `getattr(self._status, 'open_until_timestamp', 0)` (0 unless OPEN). -/
def openUntil : Status → ℚ
  | .Open _ _ ou => ou
  | _ => 0

end Status

/-- What `_save_state` writes through `storage.set_state`, and what
`storage.get_state` returns. -/
structure StateData where
  state : CircuitStatus
  failure_count : ℕ
  open_until : ℚ
  deriving DecidableEq, Repr

/-- The snapshot `_save_state` persists for a given live status. -/
def saveOf (st : Status) : StateData :=
  ⟨st.status_type, st.failureCount, st.openUntil⟩

/-- `StatusClosed.__init__`: fresh buffer sized `failure_limit.denominator`. -/
def mkStatusClosed (cfg : PolicyConfig) (failure_count : ℕ) : Status :=
  .Closed (fresh cfg.failure_limit.den) failure_count

/-- `StatusHalfOpen.__init__`: `use_success = success_limit != DEFAULT_THRESHOLD`,
buffer sized by the corresponding denominator. -/
def use_success (cfg : PolicyConfig) : Bool :=
  decide (cfg.success_limit ≠ DEFAULT_THRESHOLD)

def mkStatusHalfOpen (cfg : PolicyConfig) (failure_count : ℕ) : Status :=
  .HalfOpen
    (fresh (if use_success cfg then cfg.success_limit.den else cfg.failure_limit.den))
    failure_count

/-- `StatusOpen.__init__`: carries the previous status's buffer and
failure count; `open_until_timestamp` is the given `open_until` when positive,
else `now + cooldown`. -/
def mkStatusOpen (cfg : PolicyConfig) (previous : Status) (open_until now : ℚ) : Status :=
  .Open previous.execution_log previous.failureCount
    (if 0 < open_until then open_until else now + cfg.cooldown)

/-- The `status` property setter: builds the replacement state object.
CLOSED and HALF_OPEN reset `failure_count`; OPEN carries buffer and count
forward with `open_until = now + cooldown`. -/
def setStatus (cfg : PolicyConfig) (cur : Status) (now : ℚ) : CircuitStatus → Status
  | .CLOSED => mkStatusClosed cfg 0
  | .OPEN => mkStatusOpen cfg cur (now + cfg.cooldown) now
  | .HALF_OPEN => mkStatusHalfOpen cfg 0

/-- The `status` setter together with the `_save_state()` it performs
(the save list records every snapshot sent to storage, in order). -/
def setStatusS (cfg : PolicyConfig) (cur : Status) (now : ℚ) (new : CircuitStatus) :
    Status × List StateData :=
  let st := setStatus cfg cur now new
  (st, [saveOf st])

/-- `StatusHalfOpen._check_limit`, invoked on the already-updated log and
failure count. -/
def check_limit (cfg : PolicyConfig) (log : BinaryCircularBuffer) (fc : ℕ) (now : ℚ) :
    Status × List StateData :=
  if ¬ log.is_full then (.HalfOpen log fc, [])
  else if use_success cfg then
    setStatusS cfg (.HalfOpen log fc) now
      (if cfg.success_limit ≤ log.success_rate then .CLOSED else .OPEN)
  else
    setStatusS cfg (.HalfOpen log fc) now
      (if cfg.failure_limit ≤ log.failure_rate then .OPEN else .CLOSED)

/-- `mark_failure` of the current status. -/
def markFailure (cfg : PolicyConfig) (st : Status) (now : ℚ) : Status × List StateData :=
  match st with
  | .Closed log fc =>
    let log2 := log.add false
    if log2.is_full ∧ cfg.failure_limit ≤ log2.failure_rate then
      setStatusS cfg (.Closed log2 (fc + 1)) now .OPEN
    else (.Closed log2 (fc + 1), [])
  | .Open _ _ _ => (st, [])
  | .HalfOpen log fc => check_limit cfg (log.add false) (fc + 1) now

/-- `mark_success` of the current status. -/
def markSuccess (cfg : PolicyConfig) (st : Status) (now : ℚ) : Status × List StateData :=
  match st with
  | .Closed log _ => (.Closed (log.add true) 0, [])
  | .Open _ _ _ => setStatusS cfg st now .HALF_OPEN
  | .HalfOpen log _ => check_limit cfg (log.add true) 0 now

/-- `validate_execution` of the current status: `.error ()` models raising
`ProtectedCallError`; `.ok` returns the (possibly promoted) status plus saves. -/
def validateExecution (cfg : PolicyConfig) (st : Status) (now : ℚ) :
    Except Unit (Status × List StateData) :=
  match st with
  | .Closed _ _ => .ok (st, [])
  | .HalfOpen _ _ => .ok (st, [])
  | .Open _ _ ou =>
    if ou ≤ now then .ok (setStatusS cfg st now .HALF_OPEN)
    else .error ()

/-- `StatusOpen.validate_execution` of the `highway_circutbreaker` copy:
`datetime.now() - self.transitioned_at < self.policy.cooldown` raises. -/
def highwayValidateRejects (transitioned_at cooldown now : ℚ) : Bool :=
  decide (now - transitioned_at < cooldown)

/-- Outcome of one invocation of the wrapped operation: a returned value, or
an exception with its classifier verdict. -/
inductive CallOutcome where
  | ok (v : ℕ)
  | raise (classified : Bool) (excId : ℕ)
  deriving DecidableEq, Repr

/-- Observable result of one guarded call. -/
inductive CallResult where
  | rejected
  | returned (v : ℕ)
  | raised (classified : Bool) (excId : ℕ)
  deriving DecidableEq, Repr

/-- `CircuitProtectorPolicy.__call__`'s `decorated`: guard check, invoke,
classify-and-record, persist, re-raise/return.  A `.rejected` result means the
wrapped operation was never invoked (the result is independent of `op`). -/
def protectedCall (cfg : PolicyConfig) (st : Status) (now : ℚ) (op : CallOutcome) :
    CallResult × Status × List StateData :=
  match validateExecution cfg st now with
  | .error _ => (.rejected, st, [])
  | .ok (st1, s1) =>
    match op with
    | .ok v =>
      let r := markSuccess cfg st1 now
      (.returned v, r.1, s1 ++ r.2 ++ [saveOf r.1])
    | .raise c e =>
      let r := if c then markFailure cfg st1 now else markSuccess cfg st1 now
      (.raised c e, r.1, s1 ++ r.2 ++ [saveOf r.1])

/-- `CircuitProtectorPolicy._load_state`: reconstruct the live status from a
stored snapshot (`none` models both "no state found" and load failure). -/
def loadState (cfg : PolicyConfig) (data : Option StateData) (now : ℚ) : Status :=
  match data with
  | none => mkStatusClosed cfg 0
  | some d =>
    match d.state with
    | .CLOSED => mkStatusClosed cfg d.failure_count
    | .OPEN => mkStatusOpen cfg (mkStatusClosed cfg d.failure_count) d.open_until now
    | .HALF_OPEN => mkStatusHalfOpen cfg d.failure_count

/-- Recording one classified outcome through the active status's mark path
(`true` = recorded as success, `false` = recorded as tracked failure). -/
def recordOutcome (cfg : PolicyConfig) (st : Status) (now : ℚ) (success : Bool) : Status :=
  if success then (markSuccess cfg st now).1 else (markFailure cfg st now).1

def recordAll (cfg : PolicyConfig) (st : Status) (now : ℚ) (outs : List Bool) : Status :=
  outs.foldl (fun s o => recordOutcome cfg s now o) st

/-- The trigger condition of C1 in window terms: call `j` (0-based) records a
tracked failure, the trailing window is full, and it holds at least `k` (the
threshold numerator) failures. -/
def trigger (cfg : PolicyConfig) (outs : List Bool) (j : ℕ) : Prop :=
  j < outs.length ∧ outs.getD j true = false ∧ cfg.failure_limit.den ≤ j + 1 ∧
    cfg.failure_limit.num ≤ (((outs.take (j + 1)).rtake cfg.failure_limit.den).count false : ℤ)

instance (cfg : PolicyConfig) (outs : List Bool) (j : ℕ) : Decidable (trigger cfg outs j) := by
  unfold trigger; infer_instance

/-! ### `backoff.py` -/

/-- `ExponentialDelay` dataclass; delays in `ℚ` seconds
(`timedelta.total_seconds()`). -/
structure ExponentialDelay where
  min_delay : ℚ
  max_delay : ℚ
  factor : ℤ
  jitter : Option ℚ
  deriving DecidableEq, Repr

/-- `ExponentialDelay.__post_init__`: jitter, if set, must lie in `[0, 1]`. -/
def ExponentialDelay.post_init_ok (d : ExponentialDelay) : Prop :=
  match d.jitter with
  | none => True
  | some j => 0 ≤ j ∧ j ≤ 1

/-- `ExponentialDelay.for_attempt`.  `jitterSample` models the draw
`random.uniform(-offset, offset)`; it is ignored when `jitter is None`. -/
def ExponentialDelay.for_attempt (d : ExponentialDelay) (attempt : ℤ) (jitterSample : ℚ) :
    Except String ℚ :=
  if attempt < 1 then .error "`attempt` must be positive."
  else
    let delay := d.min_delay * (d.factor : ℚ) ^ (attempt - 1).toNat
    let delay2 :=
      match d.jitter with
      | none => delay
      | some _ => delay + jitterSample
    .ok (min delay2 d.max_delay)

/-- `FixedDelay(delay)`: `ExponentialDelay(min_delay=delay, max_delay=delay, factor=1)`. -/
def FixedDelay (delay : ℚ) : ExponentialDelay := ⟨delay, delay, 1, none⟩

/-! ### `retry.py`: `RetryWithBackoffPolicy` -/

structure RetryWithBackoffPolicy where
  backoff : Option ExponentialDelay
  max_retries : ℕ
  deriving DecidableEq, Repr

/-- `self.max_attempts = max_retries + 1`. -/
def RetryWithBackoffPolicy.max_attempts (p : RetryWithBackoffPolicy) : ℕ :=
  p.max_retries + 1

/-- Result of a retried call. -/
inductive RetryResult where
  | returned (v : ℕ)
  | propagated (excId : ℕ)
  | retryLimitReached (cause : Option ℕ)
  deriving DecidableEq, Repr

/-- Observable trace of a retried call: final result, number of invocations of
the wrapped operation, and the attempt numbers passed to
`self.backoff.for_attempt` before each `sleep`, in order. -/
structure RetryTrace where
  result : RetryResult
  calls : ℕ
  sleeps : List ℕ
  deriving DecidableEq, Repr

/-- The `while attempt < self.max_attempts` loop of
`RetryWithBackoffPolicy.__call__`, with `fuel = max_attempts - attempt` so the
recursion is structural.  `op i` is the outcome of the `i`-th invocation
(0-based; the loop invokes once per iteration, so the invocation index equals
`attempt` at the loop head). -/
def retryLoop (p : RetryWithBackoffPolicy) (op : ℕ → CallOutcome) :
    ℕ → ℕ → Option ℕ → List ℕ → RetryTrace
  | 0, attempt, last, sleeps => ⟨.retryLimitReached last, attempt, sleeps⟩
  | fuel + 1, attempt, _last, sleeps =>
    match op attempt with
    | .ok v => ⟨.returned v, attempt + 1, sleeps⟩
    | .raise c e =>
      if c then
        retryLoop p op fuel (attempt + 1) (some e)
          (sleeps ++ if p.backoff.isSome then [attempt + 1] else [])
      else ⟨.propagated e, attempt + 1, sleeps⟩

/-- `RetryWithBackoffPolicy.__call__`'s `decorated`. -/
def retryCall (p : RetryWithBackoffPolicy) (op : ℕ → CallOutcome) : RetryTrace :=
  retryLoop p op p.max_attempts 0 none []

/-! ### `failsafe.py`: `SafetyNet` / `Failsafe` -/

/-- `SafetyNet.__init__`: `len(policies) != len(set(policies))` raises. -/
def SafetyNet.create {π : Type} [DecidableEq π] (policies : List π) :
    Except String (List π) :=
  if policies.Nodup then .ok policies else .error "All policies must be unique."

/-- `SafetyNet.__call__`: `for policy in reversed(self.policies): func = policy(func)`.
`applyP p f` models applying policy `p` as a decorator to operation `f`. -/
def applyPolicies {π α : Type} (applyP : π → α → α) (policies : List π) (func : α) : α :=
  policies.reverse.foldl (fun f p => applyP p f) func

/-! ### Concrete instances used by witnesses -/

/-- `Fraction(2, 3)` as a kernel-reducible rational literal. -/
def twoThirds : ℚ := ⟨2, 3, by norm_num, by norm_num⟩

/-- `Fraction(3, 4)` as a kernel-reducible rational literal. -/
def threeQuarters : ℚ := ⟨3, 4, by norm_num, by norm_num⟩

/-- Witness breaker configuration for C1: `failure_limit = 2/3`. -/
def cfgC1 : PolicyConfig := ⟨10, twoThirds, 1⟩

/-- A concrete policy-application function for the C7 witness: policy `p`
post-composes "add `p`". -/
def applyShift (p : ℕ) (f : ℕ → ℕ) : ℕ → ℕ := fun x => f x + p

/-! ## Theorems -/

/-! ### Buffer lemmas and C6 -/

theorem rtake_concat_rtake {α : Type*} (n : ℕ) (l : List α) (x : α) :
    ((l.rtake n) ++ [x]).rtake n = (l ++ [x]).rtake n := by
  simp only [List.rtake_eq_reverse_take_reverse, List.reverse_append, List.reverse_singleton,
    List.singleton_append, List.reverse_reverse]
  cases n with
  | zero => simp
  | succ m => simp [List.take_take]

theorem length_rtake {α : Type*} (n : ℕ) (l : List α) :
    (l.rtake n).length = min n l.length := by
  simp only [List.rtake, List.length_drop]
  omega

theorem rtake_of_length_le {α : Type*} (n : ℕ) (l : List α) (h : l.length ≤ n) :
    l.rtake n = l := by
  simp [List.rtake, Nat.sub_eq_zero_of_le h]

theorem add_items (b : BinaryCircularBuffer) (x : Bool) :
    (b.add x).items = (b.items ++ [x]).rtake b.size := rfl

theorem add_size (b : BinaryCircularBuffer) (x : Bool) : (b.add x).size = b.size := rfl

theorem addAll_size (b : BinaryCircularBuffer) (xs : List Bool) :
    (b.addAll xs).size = b.size := by
  induction xs generalizing b with
  | nil => rfl
  | cons y ys ih => simpa [BinaryCircularBuffer.addAll] using ih (b.add y)

/-- Core buffer invariant: folding `add` over `xs` from a fresh buffer leaves
exactly the last `n` inserted items, in insertion order. -/
theorem addAll_fresh_items (n : ℕ) (xs : List Bool) :
    ((fresh n).addAll xs).items = xs.rtake n := by
  induction xs using List.reverseRecOn with
  | nil => simp [BinaryCircularBuffer.addAll, fresh]
  | append_singleton ys y ih =>
    have hsz : (List.foldl add (fresh n) ys).size = n := addAll_size _ _
    rw [BinaryCircularBuffer.addAll] at ih ⊢
    simp only [List.foldl_append, List.foldl_cons, List.foldl_nil]
    rw [add_items, hsz, ih, rtake_concat_rtake]

theorem add_length_le (b : BinaryCircularBuffer) (x : Bool) :
    (b.add x).lengthB ≤ b.size := by
  simp only [BinaryCircularBuffer.lengthB, add_items, length_rtake]
  omega

theorem add_preserves_full (b : BinaryCircularBuffer) (x : Bool) (h : b.is_full) :
    (b.add x).is_full := by
  simp only [BinaryCircularBuffer.is_full, BinaryCircularBuffer.lengthB,
    decide_eq_true_eq, add_items, add_size, length_rtake, List.length_append] at *
  omega

/-- **C6**: for every capacity `N ≥ 1` and sequence of `M` inserted booleans:
after all insertions with `M > N`, the length equals `N` and the contents equal
the last `N` inserted values in insertion order; the length never exceeds `N`
after any add; and once the buffer is full it remains full under every add. -/
theorem buffer_window_spec (N : ℕ) (xs : List Bool) (_hN : 1 ≤ N) :
    (N < xs.length →
      ((fresh N).addAll xs).lengthB = N ∧
      ((fresh N).addAll xs).items = xs.rtake N) ∧
    ((fresh N).addAll xs).lengthB ≤ N ∧
    (∀ x, ((fresh N).addAll xs).is_full → (((fresh N).addAll xs).add x).is_full) := by
  have hitems := addAll_fresh_items N xs
  have hlen : ((fresh N).addAll xs).lengthB = min N xs.length := by
    simp [BinaryCircularBuffer.lengthB, hitems, length_rtake]
  refine ⟨fun hM => ⟨by omega, hitems⟩, by omega, fun x hfull => add_preserves_full _ _ hfull⟩

/-- Witness for `buffer_window_spec` at `N = 2`, `xs = [false, true, false]`. -/
theorem buffer_window_spec_witness :
    (2 < ([false, true, false] : List Bool).length →
      ((fresh 2).addAll [false, true, false]).lengthB = 2 ∧
      ((fresh 2).addAll [false, true, false]).items = ([false, true, false] : List Bool).rtake 2) ∧
    ((fresh 2).addAll [false, true, false]).lengthB ≤ 2 ∧
    (∀ x, ((fresh 2).addAll [false, true, false]).is_full →
      (((fresh 2).addAll [false, true, false]).add x).is_full) :=
  buffer_window_spec 2 [false, true, false] (by decide)

/-! ### C1: CLOSED opens exactly at the failure threshold -/

/-- Threshold comparison in counting terms: for a window of exactly `q.den`
samples, `q ≤ c / q.den` iff the numerator bound `q.num ≤ c` holds. -/
theorem threshold_le_count_div (q : ℚ) (c : ℕ) :
    q ≤ (c : ℚ) / (q.den : ℚ) ↔ q.num ≤ (c : ℤ) := by
  have hd0 : (0 : ℚ) < (q.den : ℚ) := by exact_mod_cast q.pos
  rw [le_div_iff₀ hd0]
  have hq : q * (q.den : ℚ) = (q.num : ℚ) := by
    nth_rewrite 1 [← Rat.num_div_den q]
    rw [div_mul_cancel₀ _ (ne_of_gt hd0)]
  rw [hq]
  exact_mod_cast Iff.rfl

theorem closed_guard_iff_trigger (cfg : PolicyConfig) (outs : List Bool) (n : ℕ)
    (hn : n < outs.length) (ho : outs.getD n true = false) :
    (((⟨cfg.failure_limit.den, (outs.take (n + 1)).rtake cfg.failure_limit.den⟩ :
        BinaryCircularBuffer).is_full : Prop) ∧
      cfg.failure_limit ≤
        (⟨cfg.failure_limit.den, (outs.take (n + 1)).rtake cfg.failure_limit.den⟩ :
          BinaryCircularBuffer).failure_rate) ↔
    trigger cfg outs n := by
  set N := cfg.failure_limit.den with hN
  have hlen : ((outs.take (n + 1)).rtake N).length = min N (n + 1) := by
    rw [length_rtake, List.length_take]
    omega
  simp only [BinaryCircularBuffer.is_full, BinaryCircularBuffer.lengthB,
    BinaryCircularBuffer.failure_rate, BinaryCircularBuffer.failure_count,
    decide_eq_true_eq, hlen, trigger, ← hN]
  constructor
  · rintro ⟨hfull, hrate⟩
    have hNle : N ≤ n + 1 := by omega
    rw [min_eq_left hNle] at hrate
    exact ⟨hn, ho, hNle, (threshold_le_count_div _ _).mp hrate⟩
  · rintro ⟨-, -, hNle, hcount⟩
    refine ⟨by omega, ?_⟩
    rw [min_eq_left hNle]
    exact (threshold_le_count_div _ _).mpr hcount

/-- Invariant of a CLOSED run: while no call has triggered, the breaker is
still CLOSED and its window holds exactly the trailing `N` recorded outcomes. -/
theorem recordAll_closed_inv (cfg : PolicyConfig) (now : ℚ) (outs : List Bool) (m : ℕ)
    (hm : m ≤ outs.length) (h : ∀ j, j < m → ¬ trigger cfg outs j) :
    ∃ fc, recordAll cfg (mkStatusClosed cfg 0) now (outs.take m) =
      .Closed ⟨cfg.failure_limit.den, (outs.take m).rtake cfg.failure_limit.den⟩ fc := by
  induction m with
  | zero => exact ⟨0, by simp [recordAll, mkStatusClosed, fresh]⟩
  | succ n ih =>
    obtain ⟨fc, hfc⟩ := ih (by omega) (fun j hj => h j (by omega))
    have hn : n < outs.length := by omega
    have htake : outs.take (n + 1) = outs.take n ++ [outs.getD n true] := by
      rw [List.take_succ, List.getElem?_eq_getElem hn, List.getD_eq_getElem _ _ hn]
      rfl
    have hfold : recordAll cfg (mkStatusClosed cfg 0) now (outs.take (n + 1)) =
        recordOutcome cfg (recordAll cfg (mkStatusClosed cfg 0) now (outs.take n)) now
          (outs.getD n true) := by
      rw [recordAll, htake, List.foldl_append]
      rfl
    rw [hfold, hfc]
    rcases hob : outs.getD n true with _ | _
    · -- recorded failure: the guard must be false, else call `n` triggers
      have hng := (not_iff_not.mpr (closed_guard_iff_trigger cfg outs n hn hob)).mpr
        (h n (by omega))
      have hadd : (⟨cfg.failure_limit.den,
          (outs.take n).rtake cfg.failure_limit.den⟩ : BinaryCircularBuffer).add false =
          ⟨cfg.failure_limit.den, (outs.take (n + 1)).rtake cfg.failure_limit.den⟩ := by
        rw [BinaryCircularBuffer.add, rtake_concat_rtake, htake, hob]
      refine ⟨fc + 1, ?_⟩
      simp only [recordOutcome, if_neg (Bool.false_ne_true), markFailure, hadd]
      rw [if_neg hng]
    · -- recorded success: no transition check at all
      have hadd : (⟨cfg.failure_limit.den,
          (outs.take n).rtake cfg.failure_limit.den⟩ : BinaryCircularBuffer).add true =
          ⟨cfg.failure_limit.den, (outs.take (n + 1)).rtake cfg.failure_limit.den⟩ := by
        rw [BinaryCircularBuffer.add, rtake_concat_rtake, htake, hob]
      exact ⟨0, by simp [recordOutcome, markSuccess, hadd]⟩

/-- **C1**: in CLOSED with `failure_limit = k/N`, (a) a call recording a tracked
failure transitions to OPEN iff, after appending `false`, the window is full and
its failure ratio is `≥ k/N`; (b) starting from a fresh CLOSED breaker the state
is still CLOSED after any number of calls none of which triggered; (c) the
breaker opens exactly on the first call that records a failure into a full
trailing `N`-window holding `≥ k` failures. -/
theorem closed_opens_on_threshold (cfg : PolicyConfig) (now : ℚ) (outs : List Bool) :
    (∀ (log : BinaryCircularBuffer) (fc : ℕ), log.size = cfg.failure_limit.den →
      (((markFailure cfg (.Closed log fc) now).1.status_type = .OPEN) ↔
        (((log.add false).is_full : Prop) ∧
          cfg.failure_limit ≤ (log.add false).failure_rate))) ∧
    (∀ m, m ≤ outs.length → (∀ j, j < m → ¬ trigger cfg outs j) →
      (recordAll cfg (mkStatusClosed cfg 0) now (outs.take m)).status_type = .CLOSED) ∧
    (∀ j, trigger cfg outs j → (∀ i, i < j → ¬ trigger cfg outs i) →
      (recordAll cfg (mkStatusClosed cfg 0) now (outs.take (j + 1))).status_type = .OPEN) := by
  refine ⟨?_, ?_, ?_⟩
  · intro log fc _
    simp only [markFailure]
    split
    · next hg => exact iff_of_true (by simp [setStatusS, setStatus, mkStatusOpen,
        Status.status_type]) hg
    · next hg => exact iff_of_false (by simp [Status.status_type]) hg
  · intro m hm h
    obtain ⟨fc, hfc⟩ := recordAll_closed_inv cfg now outs m hm h
    rw [hfc]
    rfl
  · intro j hj hfirst
    have hjlen : j < outs.length := hj.1
    have ho : outs.getD j true = false := hj.2.1
    obtain ⟨fc, hfc⟩ := recordAll_closed_inv cfg now outs j (by omega) hfirst
    have htake : outs.take (j + 1) = outs.take j ++ [outs.getD j true] := by
      rw [List.take_succ, List.getElem?_eq_getElem hjlen, List.getD_eq_getElem _ _ hjlen]
      rfl
    have hfold : recordAll cfg (mkStatusClosed cfg 0) now (outs.take (j + 1)) =
        recordOutcome cfg (recordAll cfg (mkStatusClosed cfg 0) now (outs.take j)) now
          (outs.getD j true) := by
      rw [recordAll, htake, List.foldl_append]
      rfl
    have hadd : (⟨cfg.failure_limit.den,
        (outs.take j).rtake cfg.failure_limit.den⟩ : BinaryCircularBuffer).add false =
        ⟨cfg.failure_limit.den, (outs.take (j + 1)).rtake cfg.failure_limit.den⟩ := by
      rw [BinaryCircularBuffer.add, rtake_concat_rtake, htake, ho]
    have hg := (closed_guard_iff_trigger cfg outs j hjlen ho).mpr hj
    rw [hfold, hfc, ho]
    simp only [recordOutcome, if_neg (Bool.false_ne_true), markFailure, hadd]
    rw [if_pos hg]
    simp [setStatusS, setStatus, mkStatusOpen, Status.status_type]

/-- Witness for `closed_opens_on_threshold`: `failure_limit = 2/3`, outcomes
`[failure, success, failure]`; the breaker stays CLOSED through the first two
calls and opens on the third. -/
theorem closed_opens_on_threshold_witness :
    (recordAll cfgC1 (mkStatusClosed cfgC1 0) 0
        (([false, true, false] : List Bool).take 2)).status_type = .CLOSED ∧
    (recordAll cfgC1 (mkStatusClosed cfgC1 0) 0
        (([false, true, false] : List Bool).take 3)).status_type = .OPEN := by
  constructor
  · exact (closed_opens_on_threshold cfgC1 0 [false, true, false]).2.1 2
      (by decide) (by decide)
  · exact (closed_opens_on_threshold cfgC1 0 [false, true, false]).2.2 2
      (by decide) (by decide)

/-! ### C2: the OPEN cooldown gate -/

/-- **C2**: a breaker in OPEN (opened at `openedAt` with cooldown `d`) rejects a
wrapped call with the circuit-open error iff strictly less than `d` has elapsed,
and a call at/after the elapsed cooldown is passed through to the wrapped
operation (its own outcome is returned/re-raised, never rejected); the
`highway_circutbreaker` variant's `validate_execution` gates on the same
elapsed-time condition. -/
theorem open_cooldown_gate (cfg : PolicyConfig) (openedAt now : ℚ)
    (log : BinaryCircularBuffer) (fc : ℕ) (op : CallOutcome) :
    ((protectedCall cfg (.Open log fc (openedAt + cfg.cooldown)) now op).1 = .rejected ↔
      now - openedAt < cfg.cooldown) ∧
    (cfg.cooldown ≤ now - openedAt →
      (protectedCall cfg (.Open log fc (openedAt + cfg.cooldown)) now op).1 =
        (match op with
         | .ok v => .returned v
         | .raise c e => .raised c e)) ∧
    (highwayValidateRejects openedAt cfg.cooldown now = true ↔
      now - openedAt < cfg.cooldown) := by
  have hns : (openedAt + cfg.cooldown ≤ now) ↔ cfg.cooldown ≤ now - openedAt := by
    constructor <;> intro h <;> linarith
  refine ⟨?_, ?_, ?_⟩
  · by_cases h : openedAt + cfg.cooldown ≤ now
    · have hres : (protectedCall cfg (.Open log fc (openedAt + cfg.cooldown)) now op).1 ≠
          .rejected := by
        rcases op with ⟨v⟩ | ⟨c, e⟩ <;> simp [protectedCall, validateExecution, h]
      exact iff_of_false hres (not_lt.mpr (by linarith [hns.mp h]))
    · have hres : (protectedCall cfg (.Open log fc (openedAt + cfg.cooldown)) now op).1 =
          .rejected := by
        simp [protectedCall, validateExecution, h]
      exact iff_of_true hres (by linarith [not_le.mp h])
  · intro hcd
    have h : openedAt + cfg.cooldown ≤ now := hns.mpr hcd
    rcases op with ⟨v⟩ | ⟨c, e⟩ <;> simp [protectedCall, validateExecution, h]
  · simp [highwayValidateRejects]

/-- Witness for `open_cooldown_gate`: cooldown 5, opened at 0; a call at
time 7 goes through and returns the operation's value. -/
theorem open_cooldown_gate_witness :
    ((5 : ℚ) ≤ (7 : ℚ) - 0) ∧
    (protectedCall ⟨5, 1, 1⟩ (.Open (fresh 1) 0 ((0 : ℚ) + (5 : ℚ))) 7 (.ok 3)).1 =
      .returned 3 := by
  have h : ((5 : ℚ) ≤ (7 : ℚ) - 0) := by norm_num
  exact ⟨h, (open_cooldown_gate ⟨5, 1, 1⟩ 0 7 (fresh 1) 0 (.ok 3)).2.1 h⟩

/-! ### C5: in-cooldown rejection has no side effects -/

/-- **C5**: a call on an OPEN breaker strictly inside its cooldown raises the
circuit-open error without invoking the wrapped operation and without recording
any outcome: the result is `.rejected` independently of the operation's
outcome, the live state (window contents included) is returned unchanged, and
no snapshot is written to storage. -/
theorem open_rejection_no_effects (cfg : PolicyConfig) (now : ℚ)
    (log : BinaryCircularBuffer) (fc : ℕ) (ou : ℚ) (h : now < ou) :
    ∀ op : CallOutcome,
      protectedCall cfg (.Open log fc ou) now op = (.rejected, .Open log fc ou, []) := by
  intro op
  have hno : ¬ (ou ≤ now) := not_le.mpr h
  rcases op with ⟨v⟩ | ⟨c, e⟩ <;> simp [protectedCall, validateExecution, hno]

/-- Witness for `open_rejection_no_effects`: cooldown expiring at time 9, call
at time 4 with a classified failing operation. -/
theorem open_rejection_no_effects_witness :
    protectedCall ⟨9, 1, 1⟩ (.Open ⟨1, [false]⟩ 2 9) 4 (.raise true 7) =
      (.rejected, .Open ⟨1, [false]⟩ 2 9, []) :=
  open_rejection_no_effects ⟨9, 1, 1⟩ 4 ⟨1, [false]⟩ 2 9 (by norm_num) (.raise true 7)

/-! ### C3: HALF_OPEN transition rule -/

/-- **C3**: in HALF_OPEN, recording an outcome causes no transition while the
window is not yet full; once the recording fills the window the successor state
is decided solely by the success rule when a success limit was configured
(`success_limit ≠ 1/1`) — CLOSED iff `success_ratio ≥ success_limit`, else
OPEN, with no reference to the failure rule even when
`failure_ratio ≥ failure_limit` holds — and, when no success limit is
configured, by the failure rule — OPEN iff `failure_ratio ≥ failure_limit`,
else CLOSED. -/
theorem half_open_transition_rule (cfg : PolicyConfig) (now : ℚ)
    (log : BinaryCircularBuffer) (fc : ℕ) (o : Bool) :
    (¬ (((log.add o).is_full : Prop)) →
      recordOutcome cfg (.HalfOpen log fc) now o =
        .HalfOpen (log.add o) (if o then 0 else fc + 1)) ∧
    (((log.add o).is_full : Prop) → use_success cfg = true →
      (recordOutcome cfg (.HalfOpen log fc) now o).status_type =
        (if cfg.success_limit ≤ (log.add o).success_rate then .CLOSED else .OPEN)) ∧
    (((log.add o).is_full : Prop) → use_success cfg = false →
      (recordOutcome cfg (.HalfOpen log fc) now o).status_type =
        (if cfg.failure_limit ≤ (log.add o).failure_rate then .OPEN else .CLOSED)) := by
  refine ⟨?_, ?_, ?_⟩
  · intro hnf
    rcases o with _ | _ <;>
      simp [recordOutcome, markSuccess, markFailure, check_limit, hnf]
  · intro hf hus
    rcases o with _ | _ <;>
      · simp only [recordOutcome, markSuccess, markFailure, check_limit, hf, hus,
          Bool.false_eq_true, if_false, if_true, not_true, ite_false, ite_true]
        split_ifs <;>
          simp_all [setStatusS, setStatus, mkStatusClosed, mkStatusHalfOpen, mkStatusOpen,
            Status.status_type]
  · intro hf hus
    rcases o with _ | _ <;>
      · simp only [recordOutcome, markSuccess, markFailure, check_limit, hf, hus,
          Bool.false_eq_true, if_false, if_true, not_true, ite_false, ite_true]
        split_ifs <;>
          simp_all [setStatusS, setStatus, mkStatusClosed, mkStatusHalfOpen, mkStatusOpen,
            Status.status_type]

/-- Witness for `half_open_transition_rule`: `success_limit = 3/4`
(configured), window of size 4 filled by the fourth recorded outcome. -/
theorem half_open_transition_rule_witness :
    (recordOutcome ⟨10, twoThirds, threeQuarters⟩
        (.HalfOpen ⟨4, [true, true, false]⟩ 1) 0 true).status_type =
      (if (⟨10, twoThirds, threeQuarters⟩ : PolicyConfig).success_limit ≤
          ((⟨4, [true, true, false]⟩ : BinaryCircularBuffer).add true).success_rate
        then CircuitStatus.CLOSED else CircuitStatus.OPEN) :=
  (half_open_transition_rule ⟨10, twoThirds, threeQuarters⟩ 0
    ⟨4, [true, true, false]⟩ 1 true).2.1 (by decide) (by decide)

/-! ### C10: persisted snapshots restore with an empty window -/

/-- While the window cannot become full, a CLOSED breaker records outcomes
without any transition. -/
theorem recordAll_short_stays_closed (cfg : PolicyConfig) (now : ℚ) (outs : List Bool)
    (l : List Bool) (fc : ℕ) (h : l.length + outs.length < cfg.failure_limit.den) :
    (recordAll cfg (.Closed ⟨cfg.failure_limit.den, l⟩ fc) now outs).status_type =
      .CLOSED := by
  induction outs generalizing l fc with
  | nil => rfl
  | cons o os ih =>
    have hrt : (l ++ [o]).rtake cfg.failure_limit.den = l ++ [o] :=
      rtake_of_length_le _ _ (by simp at h ⊢; omega)
    rcases o with _ | _
    · have hnf : ¬ ((((⟨cfg.failure_limit.den, l⟩ : BinaryCircularBuffer).add false).is_full :
          Prop) ∧ cfg.failure_limit ≤
            ((⟨cfg.failure_limit.den, l⟩ : BinaryCircularBuffer).add false).failure_rate) := by
        rintro ⟨hfull, -⟩
        simp only [BinaryCircularBuffer.is_full, BinaryCircularBuffer.lengthB, add_items,
          add_size, length_rtake, List.length_append, List.length_singleton,
          decide_eq_true_eq, Nat.le_min] at hfull
        simp only [List.length_cons] at h
        omega
      have hstep : recordOutcome cfg (.Closed ⟨cfg.failure_limit.den, l⟩ fc) now false =
          .Closed ⟨cfg.failure_limit.den, l ++ [false]⟩ (fc + 1) := by
        simp only [recordOutcome, if_neg (Bool.false_ne_true), markFailure]
        rw [if_neg hnf]
        simp [BinaryCircularBuffer.add, hrt]
      rw [recordAll, List.foldl_cons, hstep]
      exact ih (l ++ [false]) (fc + 1) (by simp at h ⊢; omega)
    · have hstep : recordOutcome cfg (.Closed ⟨cfg.failure_limit.den, l⟩ fc) now true =
          .Closed ⟨cfg.failure_limit.den, l ++ [true]⟩ 0 := by
        simp [recordOutcome, markSuccess, BinaryCircularBuffer.add, hrt]
      rw [recordAll, List.foldl_cons, hstep]
      exact ih (l ++ [true]) 0 (by simp at h ⊢; omega)

/-- **C10**: every status reconstructed by `_load_state` starts with an empty
outcome window, whatever the persisted `failure_count`; consequently a breaker
restored as CLOSED cannot transition to OPEN (it stays CLOSED) until a full
fresh window of new outcomes has been recorded. -/
theorem restored_state_fresh_window (cfg : PolicyConfig) (now : ℚ) (d : Option StateData) :
    ((loadState cfg d now).execution_log.items = []) ∧
    (∀ (fcs : ℕ) (ou : ℚ) (outs : List Bool), outs.length < cfg.failure_limit.den →
      (recordAll cfg (loadState cfg (some ⟨.CLOSED, fcs, ou⟩) now) now outs).status_type =
        .CLOSED) := by
  constructor
  · rcases d with _ | ⟨⟨s, fcs, ou⟩⟩
    · rfl
    · rcases s <;>
        simp [loadState, mkStatusClosed, mkStatusOpen, mkStatusHalfOpen, fresh,
          Status.execution_log]
  · intro fcs ou outs hlen
    have : loadState cfg (some ⟨.CLOSED, fcs, ou⟩) now =
        .Closed ⟨cfg.failure_limit.den, []⟩ fcs := rfl
    rw [this]
    exact recordAll_short_stays_closed cfg now outs [] fcs (by simpa using hlen)

/-- Witness for `restored_state_fresh_window`: a snapshot restored as CLOSED
with persisted `failure_count = 5` and `failure_limit = 2/3`; two recorded
failures (fewer than the window size 3) leave the breaker CLOSED. -/
theorem restored_state_fresh_window_witness :
    ((loadState cfgC1 (some ⟨.CLOSED, 5, 0⟩) 0).execution_log.items = []) ∧
    (recordAll cfgC1 (loadState cfgC1 (some ⟨.CLOSED, 5, 0⟩) 0) 0
        [false, false]).status_type = .CLOSED :=
  ⟨(restored_state_fresh_window cfgC1 0 (some ⟨.CLOSED, 5, 0⟩)).1,
   (restored_state_fresh_window cfgC1 0 (some ⟨.CLOSED, 5, 0⟩)).2 5 0 [false, false]
     (by decide)⟩

/-! ### C4: retry exhaustion trace -/

/-- Running the retry loop over an always-classified-failing operation
consumes all remaining fuel, invoking once and sleeping once (when a backoff
is configured) per iteration, and reports the last exception as cause. -/
theorem retryLoop_all_fail (p : RetryWithBackoffPolicy) (op : ℕ → CallOutcome) (e : ℕ → ℕ)
    (hop : ∀ i, op i = .raise true (e i)) :
    ∀ (fuel attempt : ℕ) (last : Option ℕ) (sleeps : List ℕ),
      (retryLoop p op (fuel + 1) attempt last sleeps).result =
        .retryLimitReached (some (e (attempt + fuel))) ∧
      (retryLoop p op (fuel + 1) attempt last sleeps).calls = attempt + fuel + 1 ∧
      (retryLoop p op (fuel + 1) attempt last sleeps).sleeps.length =
        sleeps.length + (if p.backoff.isSome then fuel + 1 else 0) := by
  intro fuel
  induction fuel with
  | zero =>
    intro attempt last sleeps
    rw [show (0 : ℕ) + 1 = 1 from rfl, retryLoop, hop attempt]
    simp only [if_pos rfl, retryLoop]
    rcases hb : p.backoff.isSome <;> simp [hb]
  | succ f ih =>
    intro attempt last sleeps
    rw [retryLoop, hop attempt]
    simp only [if_pos rfl, if_true]
    obtain ⟨h1, h2, h3⟩ := ih (attempt + 1) (some (e attempt))
      (sleeps ++ if p.backoff.isSome then [attempt + 1] else [])
    have haddr : attempt + 1 + f = attempt + (f + 1) := by omega
    refine ⟨?_, ?_, ?_⟩
    · rw [h1, haddr]
    · rw [h2]; omega
    · rw [h3]
      rcases hb : p.backoff.isSome <;> simp [hb] <;> omega

/-- **C4 counterexample**: `max_retries = 0` with a backoff configured and an
operation that always raises a classified exception: the operation is invoked
once (= r + 1) but `sleep` runs once, not `r = 0` times — the loop also sleeps
after the final attempt, just before raising the retries-exceeded error. -/
theorem retry_sleep_count_counterexample :
    (retryCall ⟨some (FixedDelay 1), 0⟩ (fun _ => .raise true 7)).calls = 1 ∧
    (retryCall ⟨some (FixedDelay 1), 0⟩ (fun _ => .raise true 7)).result =
      .retryLimitReached (some 7) ∧
    (retryCall ⟨some (FixedDelay 1), 0⟩ (fun _ => .raise true 7)).sleeps.length = 1 ∧
    ¬ (retryCall ⟨some (FixedDelay 1), 0⟩ (fun _ => .raise true 7)).sleeps.length = 0 := by
  refine ⟨rfl, rfl, rfl, by simp [retryCall, RetryWithBackoffPolicy.max_attempts, retryLoop]⟩

/-- **C4 (amended)**: with `max_retries = r` and an operation whose every
invocation raises a classified failure, the wrapped call invokes the operation
exactly `r + 1` times, sleeps exactly `r + 1` times when a backoff is
configured (one sleep after every failed attempt, including the last), and
raises the retries-exceeded error whose cause is the last observed
exception. -/
theorem retry_exhaustion_trace (p : RetryWithBackoffPolicy) (op : ℕ → CallOutcome)
    (e : ℕ → ℕ) (hop : ∀ i, op i = .raise true (e i)) :
    (retryCall p op).result = .retryLimitReached (some (e p.max_retries)) ∧
    (retryCall p op).calls = p.max_retries + 1 ∧
    (retryCall p op).sleeps.length = (if p.backoff.isSome then p.max_retries + 1 else 0) := by
  have h := retryLoop_all_fail p op e hop p.max_retries 0 none []
  simpa [retryCall, RetryWithBackoffPolicy.max_attempts] using h

/-- Witness for `retry_exhaustion_trace`: `max_retries = 2`, backoff
configured, exceptions numbered by invocation. -/
theorem retry_exhaustion_trace_witness :
    (retryCall ⟨some (FixedDelay 1), 2⟩ (fun i => .raise true i)).result =
      .retryLimitReached (some 2) ∧
    (retryCall ⟨some (FixedDelay 1), 2⟩ (fun i => .raise true i)).calls = 3 ∧
    (retryCall ⟨some (FixedDelay 1), 2⟩ (fun i => .raise true i)).sleeps.length =
      (if (some (FixedDelay 1)).isSome then 3 else 0) :=
  retry_exhaustion_trace ⟨some (FixedDelay 1), 2⟩ (fun i => .raise true i)
    (fun i => i) (fun _ => rfl)

/-! ### C8: classifier-rejected exceptions propagate immediately -/

theorem retryLoop_unclassified_aux (p : RetryWithBackoffPolicy) (op : ℕ → CallOutcome)
    (em : ℕ) :
    ∀ (j fuel attempt : ℕ) (last : Option ℕ) (sleeps : List ℕ),
      j < fuel →
      (∀ i, i < j → ∃ c, op (attempt + i) = .raise true c) →
      op (attempt + j) = .raise false em →
      (retryLoop p op fuel attempt last sleeps).result = .propagated em ∧
      (retryLoop p op fuel attempt last sleeps).calls = attempt + j + 1 ∧
      (retryLoop p op fuel attempt last sleeps).sleeps.length =
        sleeps.length + (if p.backoff.isSome then j else 0) := by
  intro j
  induction j with
  | zero =>
    intro fuel attempt last sleeps hj _ hop
    obtain ⟨f, rfl⟩ : ∃ f, fuel = f + 1 := ⟨fuel - 1, by omega⟩
    rw [retryLoop, show attempt + 0 = attempt from rfl] at *
    rw [hop]
    simp
  | succ n ih =>
    intro fuel attempt last sleeps hj hpre hop
    obtain ⟨f, rfl⟩ : ∃ f, fuel = f + 1 := ⟨fuel - 1, by omega⟩
    obtain ⟨c0, hc0⟩ := hpre 0 (by omega)
    rw [show attempt + 0 = attempt from rfl] at hc0
    rw [retryLoop, hc0]
    simp only [if_pos rfl, if_true]
    obtain ⟨h1, h2, h3⟩ := ih f (attempt + 1) (some c0)
      (sleeps ++ if p.backoff.isSome then [attempt + 1] else [])
      (by omega)
      (fun i hi => by
        obtain ⟨c, hc⟩ := hpre (i + 1) (by omega)
        exact ⟨c, by rw [show attempt + 1 + i = attempt + (i + 1) from by omega]; exact hc⟩)
      (by rw [show attempt + 1 + n = attempt + (n + 1) from by omega]; exact hop)
    refine ⟨h1, by rw [h2]; omega, ?_⟩
    rw [h3]
    rcases hb : p.backoff.isSome <;> simp [hb] <;> omega

/-- **C8**: an exception the classifier rejects propagates to the caller
immediately and unchanged: if the first `j` invocations raised classified
failures and invocation `j` (within the attempt budget) raises an unclassified
exception, the result is exactly that exception — never wrapped in the
retries-exceeded error — the operation is not invoked again, and no sleep
beyond the `j` earlier retry sleeps occurs (for `j = 0`, no sleep at all). -/
theorem retry_unclassified_propagates (p : RetryWithBackoffPolicy)
    (op : ℕ → CallOutcome) (e : ℕ) (j : ℕ) (hj : j < p.max_attempts)
    (hpre : ∀ i, i < j → ∃ c, op i = .raise true c)
    (hop : op j = .raise false e) :
    (retryCall p op).result = .propagated e ∧
    (retryCall p op).calls = j + 1 ∧
    (retryCall p op).sleeps.length = (if p.backoff.isSome then j else 0) := by
  have h := retryLoop_unclassified_aux p op e j p.max_attempts 0 none [] hj
    (by simpa using hpre) (by simpa using hop)
  simpa [retryCall] using h

/-- Witness for `retry_unclassified_propagates`: the first invocation raises a
classified failure, the second raises an unclassified exception `9`, which
propagates after exactly two invocations and one sleep. -/
theorem retry_unclassified_propagates_witness :
    (retryCall ⟨some (FixedDelay 1), 3⟩
        (fun i => if i = 0 then .raise true 5 else .raise false 9)).result =
      .propagated 9 ∧
    (retryCall ⟨some (FixedDelay 1), 3⟩
        (fun i => if i = 0 then .raise true 5 else .raise false 9)).calls = 2 ∧
    (retryCall ⟨some (FixedDelay 1), 3⟩
        (fun i => if i = 0 then .raise true 5 else .raise false 9)).sleeps.length =
      (if (some (FixedDelay 1)).isSome then 1 else 0) :=
  retry_unclassified_propagates ⟨some (FixedDelay 1), 3⟩
    (fun i => if i = 0 then .raise true 5 else .raise false 9) 9 1
    (by decide)
    (fun i hi => by interval_cases i; exact ⟨5, rfl⟩)
    rfl

/-! ### C9: backoff delay values -/

/-- **C9**: with no jitter, `for_attempt(a) = min(min_delay * factor^(a-1),
max_delay)` seconds for every `a ≥ 1`, and `for_attempt` raises a
configuration error for `a < 1`; in particular
`ExponentialDelay(min=50ms, max=100s, factor=2).for_attempt(3) = 0.2 s`
(`1/20 * 2² = 1/5`), and `FixedDelay(d).for_attempt(n) = d` for every
`n ≥ 1`. -/
theorem backoff_delay_spec (d : ExponentialDelay) (a : ℤ) (hj : d.jitter = none) :
    (1 ≤ a →
      d.for_attempt a 0 =
        .ok (min (d.min_delay * (d.factor : ℚ) ^ (a - 1).toNat) d.max_delay)) ∧
    (a < 1 → d.for_attempt a 0 = .error "`attempt` must be positive.") ∧
    ((⟨1/20, 100, 2, none⟩ : ExponentialDelay).for_attempt 3 0 = .ok (1/5)) ∧
    (∀ n : ℤ, 1 ≤ n → ∀ q : ℚ, (FixedDelay q).for_attempt n 0 = .ok q) := by
  refine ⟨?_, ?_, ?_, ?_⟩
  · intro ha
    simp [ExponentialDelay.for_attempt, not_lt.mpr ha, hj]
  · intro ha
    simp [ExponentialDelay.for_attempt, ha]
  · show Except.ok (min ((1 : ℚ)/20 * (2 : ℚ) ^ (2 : ℕ)) 100) = .ok (1/5)
    norm_num
  · intro n hn q
    simp [FixedDelay, ExponentialDelay.for_attempt, not_lt.mpr hn]

/-- Witness for `backoff_delay_spec` at the spec's concrete scenario:
`min = 50 ms`, `max = 100 s`, `factor = 2`, attempt 3. -/
theorem backoff_delay_spec_witness :
    ((⟨1/20, 100, 2, none⟩ : ExponentialDelay).for_attempt 3 0 =
      .ok (min ((1 : ℚ)/20 * ((2 : ℤ) : ℚ) ^ ((3 : ℤ) - 1).toNat) 100)) ∧
    (∀ n : ℤ, 1 ≤ n → ∀ q : ℚ, (FixedDelay q).for_attempt n 0 = .ok q) :=
  ⟨(backoff_delay_spec ⟨1/20, 100, 2, none⟩ 3 rfl).1 (by norm_num),
   (backoff_delay_spec ⟨1/20, 100, 2, none⟩ 3 rfl).2.2.2⟩

/-! ### C7: policy composition order -/

/-- **C7**: the composition applies policies in reverse order: for a
duplicate-free sequence `(A, B)` construction succeeds and the composed
operation is `A` applied to the result of `B` applied to `f` — the first
policy is the outermost wrapper, so `B` observes `f`'s raw behaviour first and
`A` observes only what `B` propagates — and the empty sequence returns the
original operation unchanged. -/
theorem safety_net_composition {π α : Type} [DecidableEq π]
    (applyP : π → α → α) (A B : π) (f : α) (hAB : A ≠ B) :
    SafetyNet.create [A, B] = .ok [A, B] ∧
    applyPolicies applyP [A, B] f = applyP A (applyP B f) ∧
    applyPolicies applyP ([] : List π) f = f := by
  refine ⟨?_, rfl, rfl⟩
  simp [SafetyNet.create, hAB]

/-- Witness for `safety_net_composition`: numbered policies `0 ≠ 1` acting on
`ℕ → ℕ` by post-composition. -/
theorem safety_net_composition_witness :
    SafetyNet.create [0, 1] = .ok ([0, 1] : List ℕ) ∧
    applyPolicies applyShift [0, 1] (fun x => x) = applyShift 0 (applyShift 1 (fun x => x)) ∧
    applyPolicies applyShift ([] : List ℕ) (fun x => x) = (fun x => x) :=
  safety_net_composition applyShift 0 1 (fun x => x) (by decide)

end ResilientCircuit
